import Mathlib

/-!
Verification of the G2J Inventory Management System reorder engine.

The definitions below are a shallow embedding of the Python sources:
  - reorder_generator.py   (count_sales, check_inventory_levels,
                            generate_reorder_report, create_reorder_records, main)
  - inventory_gui.py       (InventoryApp.confirm_order_from_file)
  - generate_test-sales.py (display_inventory status computation)

Database rows become Lean structures, the MySQL products table becomes a
list of rows, SQL SELECT / UPDATE statements become list lookups and maps,
and the transaction / rollback behaviour of a batch becomes an Except
value that on error exposes the unmodified initial table.
-/

namespace G2J

/-- Embedding of the Python built-in str.strip used on every input line:
removes leading and trailing whitespace characters. -/
def isPySpace (c : Char) : Bool :=
  c = ' ' || c = '\t' || c = '\n' || c = '\r' || c = Char.ofNat 11 || c = Char.ofNat 12

/-- str.strip: drop whitespace from both ends of the string. -/
def strip (s : String) : String :=
  ⟨((s.data.dropWhile isPySpace).reverse.dropWhile isPySpace).reverse⟩

/-- reorder_generator.py count_sales, line 52: the list comprehension
[line.strip() for line in file if line.strip()] — strip every line and
drop the ones that are blank after stripping. -/
def nonBlankUpcs (lines : List String) : List String :=
  (lines.map strip).filter (fun s => s ≠ "")

/-- The per-UPC multiplicity recorded by the Counter built in count_sales:
number of occurrences of u among the stripped non-blank lines. -/
def countSales (lines : List String) (u : String) : Nat :=
  (nonBlankUpcs lines).count u

/-- First-occurrence deduplication (auxiliary): keeps the first occurrence of
each string, in encounter order, skipping strings already seen. -/
def firstDedupAux : List String → List String → List String
  | _, [] => []
  | seen, a :: l =>
    if a ∈ seen then firstDedupAux seen l else a :: firstDedupAux (a :: seen) l

/-- Keys of a Python Counter in insertion order: first occurrence of each
distinct string, in the order the strings first appear. -/
def firstDedup (l : List String) : List String := firstDedupAux [] l

/-- The items() view of the Counter built from the stripped non-blank lines:
each distinct UPC paired with its total occurrence count, listed in
first-occurrence order — exactly how count_sales hands sales_count.items()
to check_inventory_levels, and how confirm_order_from_file builds upc_counts. -/
def counterItems (lines : List String) : List (String × Nat) :=
  (firstDedup (nonBlankUpcs lines)).map (fun u => (u, (nonBlankUpcs lines).count u))

/-- reorder_generator.py count_sales, lines 49-57: returns the Counter of the
stripped non-blank input lines (as its items in insertion order). -/
def count_sales (lines : List String) : List (String × Nat) :=
  counterItems lines

/-- Multiplicity a given UPC carries in an items list: the count of the unique
entry whose key is u, or 0 when u has no entry. -/
def countFor (entries : List (String × Nat)) (u : String) : Nat :=
  ((entries.find? (fun e => e.1 == u)).map Prod.snd).getD 0

/-- A row of the products table as read by the engine: SELECT product_id,
product_name, current_quantity, case_size FROM products WHERE upc = ... -/
structure Product where
  product_id : Nat
  upc : String
  product_name : String
  current_quantity : Int
  case_size : Int
  deriving Repr, DecidableEq

/-- SELECT ... FROM products WHERE upc = u with fetchone(): the first row of
the table whose upc column equals u, if any. -/
def lookupProduct (catalog : List Product) (u : String) : Option Product :=
  catalog.find? (fun p => p.upc == u)

/-- UPDATE products SET current_quantity = q WHERE product_id = pid. -/
def updateQuantity (catalog : List Product) (pid : Nat) (q : Int) : List Product :=
  catalog.map (fun p => if p.product_id = pid then { p with current_quantity := q } else p)

/-- UPDATE products SET current_quantity = current_quantity + amount
WHERE product_id = pid. -/
def addQuantity (catalog : List Product) (pid : Nat) (amount : Int) : List Product :=
  catalog.map
    (fun p => if p.product_id = pid then
        { p with current_quantity := p.current_quantity + amount } else p)

/-- An entry of the products_with_cases_consumed dictionary built by
check_inventory_levels (reorder_generator.py lines 110-117), which is also the
shape of each element of the returned reorder_list. -/
structure ReorderItem where
  product_id : Nat
  upc : String
  product_name : String
  current_quantity : Int
  case_size : Int
  cases_consumed : Nat
  deriving Repr, DecidableEq

/-- State threaded through the check_inventory_levels loop: the products table,
the values of the products_with_cases_consumed dictionary in insertion order,
and the UPCs named by the printed not-found warnings, in print order. -/
structure CheckState where
  catalog : List Product
  reorder_list : List ReorderItem
  warnings : List String
  deriving Repr, DecidableEq

/-- The dictionary accumulation of reorder_generator.py lines 107-117: if an
entry with this product_id already exists, add the new cases_consumed onto it,
otherwise append a fresh entry (dict insertion order). -/
def addCasesConsumed (acc : List ReorderItem) (item : ReorderItem) : List ReorderItem :=
  if acc.any (fun r => r.product_id == item.product_id) then
    acc.map (fun r => if r.product_id = item.product_id then
        { r with cases_consumed := r.cases_consumed + item.cases_consumed } else r)
  else acc ++ [item]

/-- One iteration of the check_inventory_levels loop (reorder_generator.py
lines 82-119) on a (upc, quantity_sold) item of the sales Counter: look the
product up by UPC; if found, write back current_quantity - quantity_sold, then
— guarded first by case_size > 0, so the modulus is never taken on a
non-positive case_size — record quantity_sold // case_size consumed cases when
quantity_sold is an exact multiple of case_size and at least one case was
consumed; if not found, print a warning naming the UPC and continue. -/
def checkStep (s : CheckState) (e : String × Nat) : CheckState :=
  match lookupProduct s.catalog e.1 with
  | some p =>
    let newQuantity : Int := p.current_quantity - (e.2 : Int)
    let catalog' := updateQuantity s.catalog p.product_id newQuantity
    if 0 < p.case_size then
      if e.2 % p.case_size.toNat = 0 then
        if 0 < e.2 / p.case_size.toNat then
          { s with catalog := catalog',
                   reorder_list := addCasesConsumed s.reorder_list
                     ⟨p.product_id, e.1, p.product_name, newQuantity,
                      p.case_size, e.2 / p.case_size.toNat⟩ }
        else { s with catalog := catalog' }
      else { s with catalog := catalog' }
    else { s with catalog := catalog' }
  | none => { s with warnings := s.warnings ++ [e.1] }

/-- reorder_generator.py check_inventory_levels, lines 65-128: fold the loop
body over the items of the sales Counter, starting from the given products
table, an empty dictionary and no warnings. -/
def check_inventory_levels (catalog : List Product) (sales : List (String × Nat)) :
    CheckState :=
  sales.foldl checkStep ⟨catalog, [], []⟩

/-- The per-item reorder decision of check_inventory_levels, phrased against a
fixed products table: what (if anything) the loop body appends for a sales item
whose UPC is met for the first time. Used to characterise the loop. -/
def decisionOf (catalog : List Product) (e : String × Nat) : Option ReorderItem :=
  match lookupProduct catalog e.1 with
  | some p =>
    if 0 < p.case_size then
      if e.2 % p.case_size.toNat = 0 then
        if 0 < e.2 / p.case_size.toNat then
          some ⟨p.product_id, e.1, p.product_name, p.current_quantity - (e.2 : Int),
                p.case_size, e.2 / p.case_size.toNat⟩
        else none
      else none
    else none
  | none => none

/-- reorder_generator.py generate_reorder_report, lines 134-157, as the lines
written to the output file: an empty reorder list writes the literal sentence,
otherwise each item contributes cases_consumed lines holding its UPC. -/
def generate_reorder_report (reorder_list : List ReorderItem) : List String :=
  if reorder_list = [] then ["No items need to be reordered."]
  else (reorder_list.map (fun item => List.replicate item.cases_consumed item.upc)).flatten

/-- A row of the reorders table as inserted by create_reorder_records
(timestamp omitted: it is the single shared datetime.now() of the run). -/
structure ReorderRecord where
  product_id : Nat
  quantity : Int
  status : String
  deriving Repr, DecidableEq

/-- The INSERT of reorder_generator.py lines 180-186 for one reorder item:
quantity_to_order = cases_consumed * case_size, status PENDING. -/
def mkRecord (item : ReorderItem) : ReorderRecord :=
  ⟨item.product_id, (item.cases_consumed : Int) * item.case_size, "PENDING"⟩

/-- The INSERT loop of create_reorder_records with a fault model: failAt gives
the iteration at which the database raises (none: no failure). An error
aborts the loop with the rows inserted so far still uncommitted. -/
def insertLoop : List ReorderItem → Option Nat → List ReorderRecord →
    Except String (List ReorderRecord)
  | [], _, pending => .ok pending
  | item :: rest, failAt, pending =>
    match failAt with
    | some 0 => .error "MySQL error"
    | some (i + 1) => insertLoop rest (some i) (pending ++ [mkRecord item])
    | none => insertLoop rest none (pending ++ [mkRecord item])

/-- reorder_generator.py create_reorder_records, lines 164-195: an empty
reorder list returns at once; otherwise the INSERT loop runs inside one
transaction — on success the batch is committed and the inserted rows become
visible, on a database error the except-branch rolls the whole batch back, so
no row becomes visible, and the process exits (modelled as the error value). -/
def create_reorder_records (reorder_list : List ReorderItem) (failAt : Option Nat) :
    Except String (List ReorderRecord) :=
  if reorder_list.isEmpty then .ok []
  else
    match insertLoop reorder_list failAt [] with
    | .ok pending => .ok pending
    | .error e => .error e

/-- The tail of reorder_generator.py main, lines 222-230: after
check_inventory_levels, create_reorder_records runs first; only when it
succeeds (a failure exits the process via sys.exit) does
generate_reorder_report write the reorder file. Returns the committed reorder
rows together with the written file lines. -/
def runEmitter (reorder_list : List ReorderItem) (failAt : Option Nat) :
    Except String (List ReorderRecord × List String) :=
  match create_reorder_records reorder_list failAt with
  | .error e => .error e
  | .ok recs => .ok (recs, generate_reorder_report reorder_list)

/-- State threaded through the confirm_order_from_file loop
(inventory_gui.py lines 206-245): the products table, the running
updated_products counter, and the skipped_upcs set (kept as a duplicate-free
list in insertion order; only membership is ever used). -/
structure ConfirmState where
  catalog : List Product
  updated : Nat
  skipped : List String
  deriving Repr, DecidableEq

/-- skipped_upcs.add(u): add u unless already present. -/
def insertSkip (skipped : List String) (u : String) : List String :=
  if u ∈ skipped then skipped else skipped ++ [u]

/-- The row count pymysql reports for the increment UPDATE: the number of rows
actually changed — every row matching the product_id when the added amount is
non-zero, none when adding zero leaves each matched row unchanged. -/
def rowsChanged (catalog : List Product) (pid : Nat) (amount : Int) : Nat :=
  if amount = 0 then 0 else catalog.countP (fun p => p.product_id == pid)

/-- One iteration of the confirm_order_from_file loop (inventory_gui.py lines
209-244) on a (upc, case_count) item of the file Counter: look the product up
by UPC; not found — record the UPC as skipped and continue; case_size not a
positive integer (the isinstance test is vacuous here, case_size being
integer-typed) — record as skipped and continue; otherwise add
case_count * case_size to current_quantity and, when at least one row
changed, count the product as updated, else record the UPC as skipped. -/
def confirmStep (s : ConfirmState) (e : String × Nat) : ConfirmState :=
  match lookupProduct s.catalog e.1 with
  | none => { s with skipped := insertSkip s.skipped e.1 }
  | some p =>
    if 0 < p.case_size then
      let quantityToAdd : Int := (e.2 : Int) * p.case_size
      let catalog' := addQuantity s.catalog p.product_id quantityToAdd
      if 0 < rowsChanged s.catalog p.product_id quantityToAdd then
        { s with catalog := catalog', updated := s.updated + 1 }
      else { s with catalog := catalog', skipped := insertSkip s.skipped e.1 }
    else { s with skipped := insertSkip s.skipped e.1 }

/-- The whole UPC-by-UPC pass of confirm_order_from_file, without failure:
fold the loop body over the items of the file Counter. -/
def applyDeliveries (catalog : List Product) (entries : List (String × Nat)) :
    ConfirmState :=
  entries.foldl confirmStep ⟨catalog, 0, []⟩

/-- The UPC-by-UPC pass with a fault model: failAt gives the iteration at
which a database operation raises (none: no failure). An error aborts the
pass with all changes of the transaction still uncommitted. -/
def updateLoop : ConfirmState → List (String × Nat) → Option Nat →
    Except String ConfirmState
  | s, [], _ => .ok s
  | s, e :: rest, failAt =>
    match failAt with
    | some 0 => .error "MySQL error"
    | some (i + 1) => updateLoop (confirmStep s e) rest (some i)
    | none => updateLoop (confirmStep s e) rest none

/-- Result of confirm_order_from_file: the success flag of the returned tuple,
the products table after the call, and the counters reported in the summary
message (processed line count, updated product count, skipped UPCs). -/
structure ConfirmResult where
  success : Bool
  catalog : List Product
  processed : Nat
  updated : Nat
  skipped : List String
  deriving Repr, DecidableEq

/-- inventory_gui.py confirm_order_from_file, lines 174-271: build the Counter
of the stripped non-blank file lines; an empty Counter returns failure with
nothing touched; otherwise the loop runs inside one transaction opened by
begin() — on success commit() publishes the new table and the summary reports
the counters, while a database (or any unexpected) error reaches an
except-branch whose rollback discards every change of the transaction, the
call returning failure with the table as it was before the call. -/
def confirm_order_from_file (catalog : List Product) (fileLines : List String)
    (failAt : Option Nat) : ConfirmResult :=
  let entries := counterItems fileLines
  if entries.isEmpty then ⟨false, catalog, 0, 0, []⟩
  else
    match updateLoop ⟨catalog, 0, []⟩ entries failAt with
    | .error _ => ⟨false, catalog, 0, 0, []⟩
    | .ok s => ⟨true, s.catalog, (nonBlankUpcs fileLines).length, s.updated, s.skipped⟩

/-- generate_test-sales.py display_inventory, lines 53-58: the status column
computed for a product row from its current_quantity and reorder_point. -/
def inventoryStatus (current_quantity reorder_point : Int) : String :=
  if current_quantity ≤ reorder_point then "REORDER"
  else if current_quantity ≤ reorder_point * 2 then "LOW"
  else "OK"

/-! ### Basic lemmas about the embedded primitives -/

lemma lookupProduct_mem {c : List Product} {u : String} {p : Product}
    (h : lookupProduct c u = some p) : p ∈ c :=
  List.mem_of_find?_eq_some h

lemma lookupProduct_upc {c : List Product} {u : String} {p : Product}
    (h : lookupProduct c u = some p) : p.upc = u := by
  have := List.find?_some h
  simpa using this

lemma upd_set_upc (a : Product) (pid : Nat) (q : Int) :
    (if a.product_id = pid then { a with current_quantity := q } else a).upc = a.upc := by
  by_cases h : a.product_id = pid <;> simp [h]

lemma upd_set_pid (a : Product) (pid : Nat) (q : Int) :
    (if a.product_id = pid then { a with current_quantity := q } else a).product_id
      = a.product_id := by
  by_cases h : a.product_id = pid <;> simp [h]

lemma upd_add_upc (a : Product) (pid : Nat) (amt : Int) :
    (if a.product_id = pid then
        { a with current_quantity := a.current_quantity + amt } else a).upc = a.upc := by
  by_cases h : a.product_id = pid <;> simp [h]

lemma upd_add_pid (a : Product) (pid : Nat) (amt : Int) :
    (if a.product_id = pid then
        { a with current_quantity := a.current_quantity + amt } else a).product_id
      = a.product_id := by
  by_cases h : a.product_id = pid <;> simp [h]

lemma lookup_updateQuantity (c : List Product) (pid : Nat) (q : Int) (u : String) :
    lookupProduct (updateQuantity c pid q) u =
      (lookupProduct c u).map
        (fun p => if p.product_id = pid then { p with current_quantity := q } else p) := by
  have hpred : ((fun p : Product => p.upc == u) ∘
      (fun p => if p.product_id = pid then { p with current_quantity := q } else p))
        = (fun p : Product => p.upc == u) := by
    funext p
    simp [Function.comp, upd_set_upc]
  unfold lookupProduct updateQuantity
  rw [List.find?_map, hpred]

lemma lookup_addQuantity (c : List Product) (pid : Nat) (amt : Int) (u : String) :
    lookupProduct (addQuantity c pid amt) u =
      (lookupProduct c u).map
        (fun p => if p.product_id = pid then
            { p with current_quantity := p.current_quantity + amt } else p) := by
  have hpred : ((fun p : Product => p.upc == u) ∘
      (fun p => if p.product_id = pid then
          { p with current_quantity := p.current_quantity + amt } else p))
        = (fun p : Product => p.upc == u) := by
    funext p
    simp [Function.comp, upd_add_upc]
  unfold lookupProduct addQuantity
  rw [List.find?_map, hpred]

lemma mem_firstDedupAux (x : String) :
    ∀ (l seen : List String), x ∈ firstDedupAux seen l ↔ x ∈ l ∧ x ∉ seen := by
  intro l
  induction l with
  | nil => intro seen; simp [firstDedupAux]
  | cons a t ih =>
      intro seen
      by_cases h : a ∈ seen
      · rw [firstDedupAux, if_pos h, ih]
        constructor
        · rintro ⟨hx, hs⟩; exact ⟨List.mem_cons_of_mem _ hx, hs⟩
        · rintro ⟨hx, hs⟩
          rcases List.mem_cons.mp hx with rfl | hx
          · exact absurd h hs
          · exact ⟨hx, hs⟩
      · rw [firstDedupAux, if_neg h]
        constructor
        · intro hx
          rcases List.mem_cons.mp hx with rfl | hx
          · exact ⟨List.mem_cons_self _ _, h⟩
          · rcases (ih (a :: seen)).mp hx with ⟨ht, hs⟩
            exact ⟨List.mem_cons_of_mem _ ht,
              fun hmem => hs (List.mem_cons_of_mem _ hmem)⟩
        · rintro ⟨hx, hs⟩
          rcases List.mem_cons.mp hx with rfl | hx
          · exact List.mem_cons_self _ _
          · by_cases hxa : x = a
            · exact hxa ▸ List.mem_cons_self _ _
            · exact List.mem_cons_of_mem _ ((ih (a :: seen)).mpr
                ⟨hx, fun hmem => (List.mem_cons.mp hmem).elim hxa hs⟩)

lemma mem_firstDedup (x : String) (l : List String) :
    x ∈ firstDedup l ↔ x ∈ l := by
  rw [firstDedup, mem_firstDedupAux]
  simp

lemma nodup_firstDedupAux : ∀ (l seen : List String), (firstDedupAux seen l).Nodup := by
  intro l
  induction l with
  | nil => intro seen; simp [firstDedupAux]
  | cons a t ih =>
      intro seen
      by_cases h : a ∈ seen
      · rw [firstDedupAux, if_pos h]; exact ih seen
      · rw [firstDedupAux, if_neg h]
        refine List.nodup_cons.mpr ⟨?_, ih (a :: seen)⟩
        intro hmem
        exact ((mem_firstDedupAux a t (a :: seen)).mp hmem).2 (List.mem_cons_self _ _)

lemma nodup_firstDedup (l : List String) : (firstDedup l).Nodup :=
  nodup_firstDedupAux l []

lemma counterItems_keys (lines : List String) :
    (counterItems lines).map Prod.fst = firstDedup (nonBlankUpcs lines) := by
  have hid : (Prod.fst ∘ fun u : String => (u, (nonBlankUpcs lines).count u)) = id := by
    funext u; rfl
  simp [counterItems, List.map_map, hid]

lemma counterItems_keys_nodup (lines : List String) :
    ((counterItems lines).map Prod.fst).Nodup := by
  rw [counterItems_keys]; exact nodup_firstDedup _

lemma mem_counterItems (lines : List String) (u : String) :
    (u, (nonBlankUpcs lines).count u) ∈ counterItems lines ↔ u ∈ nonBlankUpcs lines := by
  constructor
  · intro h
    rcases List.mem_map.mp h with ⟨v, hv, hveq⟩
    have : v = u := congrArg Prod.fst hveq
    subst this
    exact (mem_firstDedup _ _).mp hv
  · intro h
    exact List.mem_map.mpr ⟨u, (mem_firstDedup _ _).mpr h, rfl⟩

lemma counterItems_entry {lines : List String} {u : String} {n : Nat}
    (h : (u, n) ∈ counterItems lines) :
    u ∈ nonBlankUpcs lines ∧ n = (nonBlankUpcs lines).count u := by
  rcases List.mem_map.mp h with ⟨v, hv, hveq⟩
  have hv1 : v = u := congrArg Prod.fst hveq
  have hv2 : (nonBlankUpcs lines).count v = n := congrArg Prod.snd hveq
  subst hv1
  exact ⟨(mem_firstDedup _ _).mp hv, hv2.symm⟩

lemma countFor_nil (u : String) : countFor [] u = 0 := rfl

lemma countFor_cons_self (u : String) (n : Nat) (rest : List (String × Nat)) :
    countFor ((u, n) :: rest) u = n := by
  simp [countFor]

lemma countFor_cons_ne (u v : String) (n : Nat) (rest : List (String × Nat))
    (h : u ≠ v) : countFor ((u, n) :: rest) v = countFor rest v := by
  simp only [countFor]
  rw [List.find?_cons_of_neg _ (by simpa using h)]

lemma countFor_eq_zero {entries : List (String × Nat)} {v : String}
    (h : v ∉ entries.map Prod.fst) : countFor entries v = 0 := by
  induction entries with
  | nil => rfl
  | cons e rest ih =>
      simp only [List.map_cons, List.mem_cons, not_or] at h
      rw [show e = (e.1, e.2) from rfl, countFor_cons_ne _ _ _ _ (fun he => h.1 he.symm)]
      exact ih h.2

lemma countFor_map_self (l : List String) (f : String → Nat) (u : String) :
    countFor (l.map (fun v => (v, f v))) u = if u ∈ l then f u else 0 := by
  induction l with
  | nil => rfl
  | cons a t ih =>
      by_cases h : a = u
      · subst h
        simp [countFor, List.find?_cons_of_pos]
      · rw [List.map_cons, countFor_cons_ne _ _ _ _ h, ih]
        have hua : ¬ u = a := fun he => h he.symm
        simp [List.mem_cons, hua]

lemma countFor_counterItems (lines : List String) (u : String) :
    countFor (counterItems lines) u = (nonBlankUpcs lines).count u := by
  rw [counterItems, countFor_map_self]
  by_cases h : u ∈ firstDedup (nonBlankUpcs lines)
  · rw [if_pos h]
  · rw [if_neg h]
    exact (List.count_eq_zero.mpr (fun hm => h ((mem_firstDedup _ _).mpr hm))).symm

lemma mem_insertSkip (s : List String) (u x : String) :
    x ∈ insertSkip s u ↔ x ∈ s ∨ x = u := by
  by_cases h : u ∈ s
  · rw [insertSkip, if_pos h]
    exact ⟨Or.inl, fun hx => hx.elim id (fun he => he ▸ h)⟩
  · rw [insertSkip, if_neg h]
    simp

lemma updateLoop_none (entries : List (String × Nat)) :
    ∀ s : ConfirmState, updateLoop s entries none = .ok (entries.foldl confirmStep s) := by
  induction entries with
  | nil => intro s; rfl
  | cons e rest ih => intro s; rw [updateLoop, List.foldl_cons]; exact ih _

lemma updateLoop_fail (entries : List (String × Nat)) :
    ∀ (s : ConfirmState) (i : Nat), i < entries.length →
      updateLoop s entries (some i) = .error "MySQL error" := by
  induction entries with
  | nil => intro s i h; exact absurd h (by simp)
  | cons e rest ih =>
      intro s i h
      match i with
      | 0 => rfl
      | i + 1 =>
          rw [updateLoop]
          exact ih _ i (by simpa using h)

lemma insertLoop_none (items : List ReorderItem) :
    ∀ pending : List ReorderRecord,
      insertLoop items none pending = .ok (pending ++ items.map mkRecord) := by
  induction items with
  | nil => intro pending; simp [insertLoop]
  | cons item rest ih =>
      intro pending
      rw [insertLoop, ih]
      simp

/-! ### Characterisation of the check_inventory_levels loop

The sales Counter items have pairwise distinct keys, so on a products table
whose UPCs determine product_ids (the database has upc unique and product_id
as key), every loop iteration sees the looked-up product exactly as it is in
the initial table, the dictionary never merges two entries, and the whole loop
is a filterMap of a per-item decision over the initial table. -/

lemma checkFold_spec (catalog0 : List Product)
    (hinj0 : ∀ a ∈ catalog0, ∀ b ∈ catalog0, a.product_id = b.product_id → a.upc = b.upc) :
    ∀ (entries : List (String × Nat)) (c : List Product) (acc : List ReorderItem)
      (w : List String),
      (entries.map Prod.fst).Nodup →
      (∀ e ∈ entries, lookupProduct c e.1 = lookupProduct catalog0 e.1) →
      (∀ a ∈ c, ∀ b ∈ c, a.product_id = b.product_id → a.upc = b.upc) →
      (∀ e ∈ entries, ∀ p, lookupProduct catalog0 e.1 = some p →
          ∀ r ∈ acc, r.product_id ≠ p.product_id) →
      (entries.foldl checkStep ⟨c, acc, w⟩).reorder_list
          = acc ++ entries.filterMap (decisionOf catalog0) ∧
        (entries.foldl checkStep ⟨c, acc, w⟩).warnings
          = w ++ (entries.filter (fun e => (lookupProduct catalog0 e.1).isNone)).map Prod.fst ∧
        ∀ v, lookupProduct (entries.foldl checkStep ⟨c, acc, w⟩).catalog v
          = (lookupProduct c v).map
              (fun p => { p with current_quantity :=
                  p.current_quantity - (countFor entries v : Int) }) := by
  intro entries
  induction entries with
  | nil =>
      intro c acc w _ _ _ _
      refine ⟨by simp, by simp, ?_⟩
      intro v
      cases h : lookupProduct c v <;> simp [countFor_nil, h]
  | cons e rest ih =>
      intro c acc w hkeys hlk hinjc hfresh
      obtain ⟨u, n⟩ := e
      have hkeys' : (rest.map Prod.fst).Nodup := (List.nodup_cons.mp (by simpa using hkeys)).2
      have hunotin : u ∉ rest.map Prod.fst := (List.nodup_cons.mp (by simpa using hkeys)).1
      have hne_rest : ∀ e' ∈ rest, e'.1 ≠ u := by
        intro e' he' hco
        exact hunotin (hco ▸ List.mem_map_of_mem Prod.fst he')
      cases hlu : lookupProduct c u with
      | none =>
          have hlu0 : lookupProduct catalog0 u = none := by
            rw [← hlk (u, n) (List.mem_cons_self _ _)]; exact hlu
          have hstep : checkStep ⟨c, acc, w⟩ (u, n) = ⟨c, acc, w ++ [u]⟩ := by
            simp [checkStep, hlu]
          rw [List.foldl_cons, hstep]
          obtain ⟨ihacc, ihwarn, ihcat⟩ := ih c acc (w ++ [u]) hkeys'
            (fun e' he' => hlk e' (List.mem_cons_of_mem _ he'))
            hinjc
            (fun e' he' p hp r hr => hfresh e' (List.mem_cons_of_mem _ he') p hp r hr)
          refine ⟨?_, ?_, ?_⟩
          · rw [ihacc, List.filterMap_cons]
            simp [decisionOf, hlu0]
          · rw [ihwarn, List.filter_cons]
            simp [hlu0]
          · intro v
            by_cases hv : u = v
            · subst hv
              rw [ihcat u, hlu]
              rfl
            · rw [ihcat v, countFor_cons_ne u v n rest hv]
      | some p =>
          have hlu0 : lookupProduct catalog0 u = some p := by
            rw [← hlk (u, n) (List.mem_cons_self _ _)]; exact hlu
          have hpc : p ∈ c := lookupProduct_mem hlu
          have hp0 : p ∈ catalog0 := lookupProduct_mem hlu0
          have hpupc : p.upc = u := lookupProduct_upc hlu
          have hany : acc.any (fun r => r.product_id == p.product_id) = false := by
            rw [List.any_eq_false]
            intro r hr
            simp only [beq_iff_eq]
            exact fun hcontra =>
              hfresh (u, n) (List.mem_cons_self _ _) p hlu0 r hr hcontra
          have hstep : checkStep ⟨c, acc, w⟩ (u, n) =
              ⟨updateQuantity c p.product_id (p.current_quantity - (n : Int)),
               acc ++ (decisionOf catalog0 (u, n)).toList, w⟩ := by
            by_cases h1 : 0 < p.case_size
            · by_cases h2 : n % p.case_size.toNat = 0
              · by_cases h3 : 0 < n / p.case_size.toNat
                · simp [checkStep, hlu, h1, h2, h3, decisionOf, hlu0,
                    addCasesConsumed, hany]
                · simp [checkStep, hlu, h1, h2, h3, decisionOf, hlu0]
              · simp [checkStep, hlu, h1, h2, decisionOf, hlu0]
            · simp [checkStep, hlu, h1, decisionOf, hlu0]
          rw [List.foldl_cons, hstep]
          have hlk' : ∀ e' ∈ rest,
              lookupProduct (updateQuantity c p.product_id (p.current_quantity - (n : Int))) e'.1
                = lookupProduct catalog0 e'.1 := by
            intro e' he'
            rw [lookup_updateQuantity, hlk e' (List.mem_cons_of_mem _ he')]
            cases hq : lookupProduct catalog0 e'.1 with
            | none => rfl
            | some p' =>
                have hp'c : p' ∈ c := by
                  apply lookupProduct_mem (u := e'.1)
                  rw [hlk e' (List.mem_cons_of_mem _ he')]; exact hq
                have hp'upc : p'.upc = e'.1 := by
                  apply lookupProduct_upc (c := catalog0); exact hq
                simp only [Option.map_some']
                rw [if_neg]
                intro hpid
                exact hne_rest e' he' (by rw [← hp'upc, hinjc p' hp'c p hpc hpid, hpupc])
          have hinjc' : ∀ a ∈ updateQuantity c p.product_id (p.current_quantity - (n : Int)),
              ∀ b ∈ updateQuantity c p.product_id (p.current_quantity - (n : Int)),
                a.product_id = b.product_id → a.upc = b.upc := by
            intro a' ha' b' hb' hpid
            rcases List.mem_map.mp ha' with ⟨a, ha, rfl⟩
            rcases List.mem_map.mp hb' with ⟨b, hb, rfl⟩
            rw [upd_set_upc, upd_set_upc]
            rw [upd_set_pid, upd_set_pid] at hpid
            exact hinjc a ha b hb hpid
          have hfresh' : ∀ e' ∈ rest, ∀ p', lookupProduct catalog0 e'.1 = some p' →
              ∀ r ∈ acc ++ (decisionOf catalog0 (u, n)).toList,
                r.product_id ≠ p'.product_id := by
            intro e' he' p' hp' r hr
            rcases List.mem_append.mp hr with hr | hr
            · exact hfresh e' (List.mem_cons_of_mem _ he') p' hp' r hr
            · have hp'0 : p' ∈ catalog0 := lookupProduct_mem hp'
              have hp'upc : p'.upc = e'.1 := lookupProduct_upc hp'
              have hrpid : r.product_id = p.product_id := by
                rcases hdec : decisionOf catalog0 (u, n) with _ | d
                · rw [hdec] at hr; simp at hr
                · rw [hdec] at hr
                  simp only [Option.toList_some, List.mem_singleton] at hr
                  subst hr
                  simp only [decisionOf, hlu0] at hdec
                  by_cases h1 : 0 < p.case_size
                  · by_cases h2 : n % p.case_size.toNat = 0
                    · by_cases h3 : 0 < n / p.case_size.toNat
                      · rw [if_pos h1, if_pos h2, if_pos h3] at hdec
                        cases hdec; rfl
                      · rw [if_pos h1, if_pos h2, if_neg h3] at hdec; cases hdec
                    · rw [if_pos h1, if_neg h2] at hdec; cases hdec
                  · rw [if_neg h1] at hdec; cases hdec
              rw [hrpid]
              intro hcontra
              exact hne_rest e' he'
                (by rw [← hp'upc, ← hinj0 p hp0 p' hp'0 hcontra, hpupc])
          obtain ⟨ihacc, ihwarn, ihcat⟩ :=
            ih (updateQuantity c p.product_id (p.current_quantity - (n : Int)))
              (acc ++ (decisionOf catalog0 (u, n)).toList) w hkeys' hlk' hinjc' hfresh'
          refine ⟨?_, ?_, ?_⟩
          · rw [ihacc, List.filterMap_cons]
            cases hdec : decisionOf catalog0 (u, n) <;> simp [hdec]
          · rw [ihwarn, List.filter_cons]
            simp [hlu0]
          · intro v
            rw [ihcat v, lookup_updateQuantity]
            by_cases hv : u = v
            · subst hv
              rw [hlu]
              have h0 : countFor rest u = 0 := countFor_eq_zero hunotin
              rw [countFor_cons_self u n rest]
              simp [h0]
            · rw [countFor_cons_ne u v n rest hv]
              cases hq : lookupProduct c v with
              | none => rfl
              | some p' =>
                  have hp'c : p' ∈ c := lookupProduct_mem hq
                  have hp'upc : p'.upc = v := lookupProduct_upc hq
                  simp only [Option.map_some']
                  rw [if_neg]
                  intro hpid
                  exact hv (by rw [← hpupc, ← hinjc p' hp'c p hpc hpid, hp'upc])

/-- The engine run on raw input lines: the reorder list is the filterMap of
the per-item decision, the warnings name exactly the unknown UPCs in
first-occurrence order, and every product ends with its initial quantity
minus the number of its units sold. -/
lemma checkRun_spec (catalog : List Product) (lines : List String)
    (hinj : ∀ a ∈ catalog, ∀ b ∈ catalog, a.product_id = b.product_id → a.upc = b.upc) :
    (check_inventory_levels catalog (count_sales lines)).reorder_list
        = (counterItems lines).filterMap (decisionOf catalog) ∧
      (check_inventory_levels catalog (count_sales lines)).warnings
        = ((counterItems lines).filter
            (fun e => (lookupProduct catalog e.1).isNone)).map Prod.fst ∧
      ∀ v, lookupProduct (check_inventory_levels catalog (count_sales lines)).catalog v
        = (lookupProduct catalog v).map
            (fun p => { p with current_quantity :=
                p.current_quantity - (countSales lines v : Int) }) := by
  obtain ⟨h1, h2, h3⟩ := checkFold_spec catalog hinj (counterItems lines) catalog [] []
    (counterItems_keys_nodup lines) (fun _ _ => rfl) hinj (by simp)
  refine ⟨by simpa using h1, by simpa using h2, ?_⟩
  intro v
  have := h3 v
  rwa [countFor_counterItems lines v] at this

/-- A decision produced by the loop always carries the UPC of the sales item
it came from. -/
lemma decisionOf_upc {catalog : List Product} {e : String × Nat} {r : ReorderItem}
    (h : decisionOf catalog e = some r) : r.upc = e.1 := by
  unfold decisionOf at h
  split at h
  · split at h
    · split at h
      · split at h
        · cases h; rfl
        · cases h
      · cases h
    · cases h
  · cases h

/-- On a key list without duplicates, the entry holding a given key is unique. -/
lemma keys_nodup_unique :
    ∀ entries : List (String × Nat), (entries.map Prod.fst).Nodup →
      ∀ (u : String) (n : Nat), (u, n) ∈ entries →
        ∀ e ∈ entries, e.1 = u → e = (u, n) := by
  intro entries
  induction entries with
  | nil => intro _ u n hmem; cases hmem
  | cons e0 rest ih =>
      intro hkeys u n hmem e he h1
      rw [List.map_cons] at hkeys
      have hk1 := (List.nodup_cons.mp hkeys).1
      have hk2 := (List.nodup_cons.mp hkeys).2
      rcases List.mem_cons.mp he with rfl | he'
      · rcases List.mem_cons.mp hmem with h | h
        · exact h.symm
        · exact absurd
            (show e.1 ∈ rest.map Prod.fst by
              rw [h1]; exact List.mem_map_of_mem Prod.fst h) hk1
      · rcases List.mem_cons.mp hmem with h | h
        · have hu : u ∈ rest.map Prod.fst := by
            rw [← h1]; exact List.mem_map_of_mem Prod.fst he'
          have he0 : e0.1 = u := (congrArg Prod.fst h).symm
          rw [he0] at hk1
          exact absurd hu hk1
        · exact ih hk2 u n h e he' h1

/-- On a key list without duplicates, a decision with UPC u in the filterMap
can only come from the unique entry keyed by u. -/
lemma decision_mem_iff (catalog : List Product) (entries : List (String × Nat))
    (hkeys : (entries.map Prod.fst).Nodup) (u : String) (n : Nat)
    (hmem : (u, n) ∈ entries) :
    ((∃ r ∈ entries.filterMap (decisionOf catalog), r.upc = u) ↔
        (decisionOf catalog (u, n)).isSome) ∧
      (∀ r ∈ entries.filterMap (decisionOf catalog), r.upc = u →
        decisionOf catalog (u, n) = some r) := by
  have huniq : ∀ e ∈ entries, e.1 = u → e = (u, n) :=
    keys_nodup_unique entries hkeys u n hmem
  constructor
  · constructor
    · rintro ⟨r, hr, hru⟩
      rcases List.mem_filterMap.mp hr with ⟨e, he, hde⟩
      have : e = (u, n) := huniq e he (by rw [← hru]; exact (decisionOf_upc hde).symm)
      rw [← this, hde]
      rfl
    · intro hsome
      rcases Option.isSome_iff_exists.mp hsome with ⟨r, hr⟩
      exact ⟨r, List.mem_filterMap.mpr ⟨(u, n), hmem, hr⟩, decisionOf_upc hr⟩
  · intro r hr hru
    rcases List.mem_filterMap.mp hr with ⟨e, he, hde⟩
    have : e = (u, n) := huniq e he (by rw [← hru]; exact (decisionOf_upc hde).symm)
    rw [← this]
    exact hde

/-- Whether the confirm_order_from_file loop records a file item as skipped,
phrased against a fixed products table: unknown UPC, non-positive case_size,
or a zero-row UPDATE (possible only for a zero case count). -/
def skipsEntry (catalog : List Product) (e : String × Nat) : Bool :=
  match lookupProduct catalog e.1 with
  | none => true
  | some p => if 0 < p.case_size then (if e.2 = 0 then true else false) else true

lemma skip_cons_iff (x u : String) (k : Nat) (sk : List String)
    (rest : List (String × Nat)) (catalog0 : List Product)
    (hskips : skipsEntry catalog0 (u, k) = true) :
    ((x ∈ sk ∨ x = u) ∨ ∃ e ∈ rest, e.1 = x ∧ skipsEntry catalog0 e = true) ↔
      x ∈ sk ∨ ∃ e ∈ (u, k) :: rest, e.1 = x ∧ skipsEntry catalog0 e = true := by
  constructor
  · rintro ((hx | hx) | ⟨e, he, hex⟩)
    · exact Or.inl hx
    · exact Or.inr ⟨(u, k), List.mem_cons_self _ _, hx.symm, hskips⟩
    · exact Or.inr ⟨e, List.mem_cons_of_mem _ he, hex⟩
  · rintro (hx | ⟨e, he, hex, hes⟩)
    · exact Or.inl (Or.inl hx)
    · rcases List.mem_cons.mp he with rfl | he'
      · exact Or.inl (Or.inr hex.symm)
      · exact Or.inr ⟨e, he', hex, hes⟩

lemma skip_cons_iff_false (x u : String) (k : Nat) (sk : List String)
    (rest : List (String × Nat)) (catalog0 : List Product)
    (hskips : skipsEntry catalog0 (u, k) = false) :
    (x ∈ sk ∨ ∃ e ∈ rest, e.1 = x ∧ skipsEntry catalog0 e = true) ↔
      x ∈ sk ∨ ∃ e ∈ (u, k) :: rest, e.1 = x ∧ skipsEntry catalog0 e = true := by
  constructor
  · rintro (hx | ⟨e, he, hex⟩)
    · exact Or.inl hx
    · exact Or.inr ⟨e, List.mem_cons_of_mem _ he, hex⟩
  · rintro (hx | ⟨e, he, hex, hes⟩)
    · exact Or.inl hx
    · rcases List.mem_cons.mp he with rfl | he'
      · rw [hskips] at hes; cases hes
      · exact Or.inr ⟨e, he', hex, hes⟩

/-- Characterisation of the confirm_order_from_file loop: with pairwise
distinct keys and a table whose UPCs determine product_ids, every product ends
with its initial quantity plus case_count * case_size for its own file entry
(when its case_size is positive; untouched otherwise), and the skipped set
collects exactly the keys of the skipping entries. -/
lemma confirmFold_spec (catalog0 : List Product) :
    ∀ (entries : List (String × Nat)) (c : List Product) (upd : Nat) (sk : List String),
      (entries.map Prod.fst).Nodup →
      (∀ e ∈ entries, lookupProduct c e.1 = lookupProduct catalog0 e.1) →
      (∀ a ∈ c, ∀ b ∈ c, a.product_id = b.product_id → a.upc = b.upc) →
      (∀ v, lookupProduct (entries.foldl confirmStep ⟨c, upd, sk⟩).catalog v
          = (lookupProduct c v).map
              (fun p => if 0 < p.case_size then
                  { p with current_quantity :=
                      p.current_quantity + (countFor entries v : Int) * p.case_size }
                else p)) ∧
        ∀ x, x ∈ (entries.foldl confirmStep ⟨c, upd, sk⟩).skipped ↔
          x ∈ sk ∨ ∃ e ∈ entries, e.1 = x ∧ skipsEntry catalog0 e = true := by
  intro entries
  induction entries with
  | nil =>
      intro c upd sk _ _ _
      refine ⟨?_, by intro x; simp⟩
      intro v
      cases h : lookupProduct c v <;> simp [countFor_nil, h]
  | cons e rest ih =>
      intro c upd sk hkeys hlk hinjc
      obtain ⟨u, k⟩ := e
      have hkeys' : (rest.map Prod.fst).Nodup := (List.nodup_cons.mp (by simpa using hkeys)).2
      have hunotin : u ∉ rest.map Prod.fst := (List.nodup_cons.mp (by simpa using hkeys)).1
      have hne_rest : ∀ e' ∈ rest, e'.1 ≠ u := by
        intro e' he' hco
        exact hunotin (hco ▸ List.mem_map_of_mem Prod.fst he')
      cases hlu : lookupProduct c u with
      | none =>
          have hlu0 : lookupProduct catalog0 u = none := by
            rw [← hlk (u, k) (List.mem_cons_self _ _)]; exact hlu
          have hstep : confirmStep ⟨c, upd, sk⟩ (u, k) = ⟨c, upd, insertSkip sk u⟩ := by
            simp [confirmStep, hlu]
          rw [List.foldl_cons, hstep]
          obtain ⟨ihcat, ihskip⟩ := ih c upd (insertSkip sk u) hkeys'
            (fun e' he' => hlk e' (List.mem_cons_of_mem _ he')) hinjc
          refine ⟨?_, ?_⟩
          · intro v
            by_cases hv : u = v
            · subst hv
              rw [ihcat u, hlu]
              rfl
            · rw [ihcat v, countFor_cons_ne u v k rest hv]
          · intro x
            rw [ihskip x, mem_insertSkip]
            exact skip_cons_iff x u k sk rest catalog0 (by simp [skipsEntry, hlu0])
      | some p =>
          have hlu0 : lookupProduct catalog0 u = some p := by
            rw [← hlk (u, k) (List.mem_cons_self _ _)]; exact hlu
          have hpc : p ∈ c := lookupProduct_mem hlu
          have hpupc : p.upc = u := lookupProduct_upc hlu
          by_cases hcs : 0 < p.case_size
          · -- positive case_size: the UPDATE runs; zero case count skips
            have hlk' : ∀ e' ∈ rest,
                lookupProduct (addQuantity c p.product_id ((k : Int) * p.case_size)) e'.1
                  = lookupProduct catalog0 e'.1 := by
              intro e' he'
              rw [lookup_addQuantity, hlk e' (List.mem_cons_of_mem _ he')]
              cases hq : lookupProduct catalog0 e'.1 with
              | none => rfl
              | some p' =>
                  have hp'c : p' ∈ c := by
                    apply lookupProduct_mem (u := e'.1)
                    rw [hlk e' (List.mem_cons_of_mem _ he')]; exact hq
                  have hp'upc : p'.upc = e'.1 := lookupProduct_upc hq
                  simp only [Option.map_some']
                  rw [if_neg]
                  intro hpid
                  exact hne_rest e' he' (by rw [← hp'upc, hinjc p' hp'c p hpc hpid, hpupc])
            have hinjc' : ∀ a ∈ addQuantity c p.product_id ((k : Int) * p.case_size),
                ∀ b ∈ addQuantity c p.product_id ((k : Int) * p.case_size),
                  a.product_id = b.product_id → a.upc = b.upc := by
              intro a' ha' b' hb' hpid
              rcases List.mem_map.mp ha' with ⟨a, ha, rfl⟩
              rcases List.mem_map.mp hb' with ⟨b, hb, rfl⟩
              rw [upd_add_upc, upd_add_upc]
              rw [upd_add_pid, upd_add_pid] at hpid
              exact hinjc a ha b hb hpid
            have hcatshared : ∀ sk' upd',
                (∀ v, lookupProduct
                    (rest.foldl confirmStep
                      ⟨addQuantity c p.product_id ((k : Int) * p.case_size), upd', sk'⟩).catalog v
                  = (lookupProduct c v).map
                      (fun q => if 0 < q.case_size then
                          { q with current_quantity :=
                              q.current_quantity + (countFor ((u, k) :: rest) v : Int) * q.case_size }
                        else q)) := by
              intro sk' upd'
              obtain ⟨ihcat, _⟩ := ih (addQuantity c p.product_id ((k : Int) * p.case_size))
                upd' sk' hkeys' hlk' hinjc'
              intro v
              rw [ihcat v, lookup_addQuantity]
              by_cases hv : u = v
              · subst hv
                rw [hlu]
                have h0 : countFor rest u = 0 := countFor_eq_zero hunotin
                rw [countFor_cons_self u k rest]
                simp [h0, hcs, mul_comm]
              · rw [countFor_cons_ne u v k rest hv]
                cases hq : lookupProduct c v with
                | none => rfl
                | some p' =>
                    have hp'c : p' ∈ c := lookupProduct_mem hq
                    have hp'upc : p'.upc = v := lookupProduct_upc hq
                    have hgp : (if p'.product_id = p.product_id then
                        { p' with current_quantity :=
                            p'.current_quantity + (k : Int) * p.case_size }
                        else p') = p' := by
                      rw [if_neg]
                      intro hpid
                      exact hv (by rw [← hpupc, ← hinjc p' hp'c p hpc hpid, hp'upc])
                    simp only [Option.map_some', hgp]
            by_cases hk : k = 0
            · -- zero cases in the file: the UPDATE changes no row, the UPC is skipped
              have hamt0 : ((k : Int) * p.case_size) = 0 := by rw [hk]; simp
              have hrows0 : rowsChanged c p.product_id ((k : Int) * p.case_size) = 0 := by
                rw [rowsChanged, if_pos hamt0]
              have hstep : confirmStep ⟨c, upd, sk⟩ (u, k) =
                  ⟨addQuantity c p.product_id ((k : Int) * p.case_size), upd,
                    insertSkip sk u⟩ := by
                simp [confirmStep, hlu, hcs, hrows0]
              rw [List.foldl_cons, hstep]
              obtain ⟨_, ihskip⟩ := ih (addQuantity c p.product_id ((k : Int) * p.case_size))
                upd (insertSkip sk u) hkeys' hlk' hinjc'
              refine ⟨hcatshared (insertSkip sk u) upd, ?_⟩
              intro x
              rw [ihskip x, mem_insertSkip]
              exact skip_cons_iff x u k sk rest catalog0 (by simp [skipsEntry, hlu0, hcs, hk])
            · -- at least one case: the UPDATE changes the row, the product counts as updated
              have hamt : ((k : Int) * p.case_size) ≠ 0 :=
                mul_ne_zero (Int.natCast_ne_zero.mpr hk) (by omega)
              have hrows : 0 < rowsChanged c p.product_id ((k : Int) * p.case_size) := by
                rw [rowsChanged, if_neg hamt]
                exact List.countP_pos_iff.mpr ⟨p, hpc, by simp⟩
              have hstep : confirmStep ⟨c, upd, sk⟩ (u, k) =
                  ⟨addQuantity c p.product_id ((k : Int) * p.case_size), upd + 1, sk⟩ := by
                simp [confirmStep, hlu, hcs, hrows]
              rw [List.foldl_cons, hstep]
              obtain ⟨_, ihskip⟩ := ih (addQuantity c p.product_id ((k : Int) * p.case_size))
                (upd + 1) sk hkeys' hlk' hinjc'
              refine ⟨hcatshared sk (upd + 1), ?_⟩
              intro x
              rw [ihskip x]
              exact skip_cons_iff_false x u k sk rest catalog0
                (by simp [skipsEntry, hlu0, hcs, hk])
          · -- non-positive case_size: invalid configuration, skipped
            have hstep : confirmStep ⟨c, upd, sk⟩ (u, k) = ⟨c, upd, insertSkip sk u⟩ := by
              simp [confirmStep, hlu, hcs]
            rw [List.foldl_cons, hstep]
            obtain ⟨ihcat, ihskip⟩ := ih c upd (insertSkip sk u) hkeys'
              (fun e' he' => hlk e' (List.mem_cons_of_mem _ he')) hinjc
            refine ⟨?_, ?_⟩
            · intro v
              by_cases hv : u = v
              · subst hv
                rw [ihcat u, hlu]
                simp [hcs]
              · rw [ihcat v, countFor_cons_ne u v k rest hv]
            · intro x
              rw [ihskip x, mem_insertSkip]
              exact skip_cons_iff x u k sk rest catalog0 (by simp [skipsEntry, hlu0, hcs])

/-- A successful confirm_order_from_file run (no database failure, non-empty
Counter): success is reported, every product gains case_count * case_size for
its own UPC (positive case_size; otherwise untouched), and the skip list holds
exactly the UPCs of skipping file entries. -/
lemma confirmRun_spec (catalog : List Product) (fileLines : List String)
    (hinj : ∀ a ∈ catalog, ∀ b ∈ catalog, a.product_id = b.product_id → a.upc = b.upc)
    (hne : counterItems fileLines ≠ []) :
    (confirm_order_from_file catalog fileLines none).success = true ∧
      (∀ v, lookupProduct (confirm_order_from_file catalog fileLines none).catalog v
        = (lookupProduct catalog v).map
            (fun p => if 0 < p.case_size then
                { p with current_quantity :=
                    p.current_quantity + (countSales fileLines v : Int) * p.case_size }
              else p)) ∧
      (∀ x, x ∈ (confirm_order_from_file catalog fileLines none).skipped ↔
        ∃ e ∈ counterItems fileLines, e.1 = x ∧ skipsEntry catalog e = true) := by
  have hempty : (counterItems fileLines).isEmpty = false :=
    List.isEmpty_eq_false.mpr hne
  have hloop := updateLoop_none (counterItems fileLines) ⟨catalog, 0, []⟩
  have hres : confirm_order_from_file catalog fileLines none =
      ⟨true, ((counterItems fileLines).foldl confirmStep ⟨catalog, 0, []⟩).catalog,
       (nonBlankUpcs fileLines).length,
       ((counterItems fileLines).foldl confirmStep ⟨catalog, 0, []⟩).updated,
       ((counterItems fileLines).foldl confirmStep ⟨catalog, 0, []⟩).skipped⟩ := by
    simp [confirm_order_from_file, hempty, hloop]
  obtain ⟨hcat, hskip⟩ := confirmFold_spec catalog (counterItems fileLines) catalog 0 []
    (counterItems_keys_nodup fileLines) (fun _ _ => rfl) hinj
  refine ⟨by rw [hres], ?_, ?_⟩
  · intro v
    rw [hres]
    have := hcat v
    rwa [countFor_counterItems fileLines v] at this
  · intro x
    rw [hres]
    have := hskip x
    simpa using this

/-- A confirm_order_from_file run hit by a database failure inside the loop:
the transaction rolls back, the call reports failure and the table is the one
from before the call. -/
lemma confirmRun_fail (catalog : List Product) (fileLines : List String) (i : Nat)
    (h : i < (counterItems fileLines).length) :
    confirm_order_from_file catalog fileLines (some i) = ⟨false, catalog, 0, 0, []⟩ := by
  have hne : counterItems fileLines ≠ [] := by
    intro h0
    rw [h0] at h
    simp at h
  have hempty : (counterItems fileLines).isEmpty = false :=
    List.isEmpty_eq_false.mpr hne
  have hloop := updateLoop_fail (counterItems fileLines) ⟨catalog, 0, []⟩ i h
  simp [confirm_order_from_file, hempty, hloop]

lemma insertLoop_fail (items : List ReorderItem) :
    ∀ (pending : List ReorderRecord) (i : Nat), i < items.length →
      insertLoop items (some i) pending = .error "MySQL error" := by
  induction items with
  | nil => intro pending i h; exact absurd h (by simp)
  | cons item rest ih =>
      intro pending i h
      match i with
      | 0 => rfl
      | i + 1 =>
          rw [insertLoop]
          exact ih _ i (by simpa using h)

/-- Evaluation of the per-item decision at a product with positive case_size. -/
lemma decisionOf_eval (catalog : List Product) (u : String) (n : Nat) (p : Product)
    (hfind : lookupProduct catalog u = some p) (hcs : 0 < p.case_size) :
    decisionOf catalog (u, n) =
      if n % p.case_size.toNat = 0 ∧ 0 < n / p.case_size.toNat then
        some ⟨p.product_id, u, p.product_name, p.current_quantity - (n : Int),
              p.case_size, n / p.case_size.toNat⟩
      else none := by
  simp only [decisionOf, hfind, if_pos hcs]
  by_cases h2 : n % p.case_size.toNat = 0
  · by_cases h3 : 0 < n / p.case_size.toNat
    · rw [if_pos h2, if_pos h3, if_pos ⟨h2, h3⟩]
    · rw [if_pos h2, if_neg h3, if_neg (fun hc => h3 hc.2)]
  · rw [if_neg h2, if_neg (fun hc => h2 hc.1)]

/-- A positive count is an exact positive multiple of a positive case size
exactly when the Python modulus test and the consumed-cases test both pass. -/
lemma multiple_iff (n cs : Nat) (hpos : 0 < n) (hcs : 0 < cs) :
    (n % cs = 0 ∧ 0 < n / cs) ↔ ∃ k, 0 < k ∧ n = k * cs := by
  constructor
  · rintro ⟨h1, h2⟩
    exact ⟨n / cs, h2, (Nat.div_mul_cancel (Nat.dvd_of_mod_eq_zero h1)).symm⟩
  · rintro ⟨k, hk, rfl⟩
    refine ⟨Nat.mul_mod_left k cs, ?_⟩
    rw [Nat.mul_div_cancel k hcs]
    exact hk

lemma countSales_perm (lines lines' : List String) (h : lines.Perm lines') (u : String) :
    countSales lines u = countSales lines' u := by
  unfold countSales nonBlankUpcs
  exact ((h.map strip).filter _).count_eq u

lemma sum_counts_eq_length (l : List String) :
    ((firstDedup l).map (fun u => l.count u)).sum = l.length := by
  have hperm : (firstDedup l).Perm l.dedup := by
    apply (List.perm_ext_iff_of_nodup (nodup_firstDedup l) (List.nodup_dedup l)).mpr
    intro a
    rw [mem_firstDedup, List.mem_dedup]
  calc ((firstDedup l).map (fun u => l.count u)).sum
      = (l.dedup.map (fun u => l.count u)).sum := (hperm.map _).sum_eq
    _ = l.length := List.sum_map_count_dedup_eq_length l

lemma nonBlank_length (lines : List String) :
    (nonBlankUpcs lines).length = (lines.filter (fun l => strip l ≠ "")).length := by
  unfold nonBlankUpcs
  rw [List.filter_map, List.length_map]
  rfl

/-! ### The claims -/

/-- Claim C8: the Sales Ledger Parser strips whitespace, discards blank lines
(both are how countSales and nonBlankUpcs are built from count_sales, lines
49-57 of reorder_generator.py), its per-UPC counts are invariant under
permutation of the input lines, and the counts over the distinct UPCs sum to
exactly the number of lines that are non-blank after stripping. -/
theorem C8_sales_ledger_counts (lines lines' : List String) (hperm : lines.Perm lines') :
    (∀ u, countSales lines u = countSales lines' u) ∧
      ((firstDedup (nonBlankUpcs lines)).map (fun u => countSales lines u)).sum
        = (lines.filter (fun l => strip l ≠ "")).length := by
  refine ⟨countSales_perm lines lines' hperm, ?_⟩
  rw [← nonBlank_length]
  exact sum_counts_eq_length (nonBlankUpcs lines)

/-- Witness for C8 at a concrete permuted pair of inputs. -/
theorem C8_sales_ledger_counts_witness :
    (["111", " 222 ", "", "111"].Perm ["111", "111", " 222 ", ""]) ∧
      ((∀ u, countSales ["111", " 222 ", "", "111"] u
          = countSales ["111", "111", " 222 ", ""] u) ∧
        ((firstDedup (nonBlankUpcs ["111", " 222 ", "", "111"])).map
            (fun u => countSales ["111", " 222 ", "", "111"] u)).sum
          = (["111", " 222 ", "", "111"].filter (fun l => strip l ≠ "")).length) :=
  ⟨by decide, C8_sales_ledger_counts _ _ (by decide)⟩

/-- Claim C9: the threshold rule of display_inventory (generate_test-sales.py
lines 53-58) is boundary-inclusive: a quantity exactly equal to the
reorder_point is classified REORDER. -/
theorem C9_threshold_boundary (r : Int) : inventoryStatus r r = "REORDER" := by
  simp [inventoryStatus]

/-- Claim C1: for a product present in the sales input with positive
case_size, check_inventory_levels emits a reorder entry for it exactly when
its total units sold over the whole input is an exact positive multiple of its
case_size, and that entry asks for unitsSold / case_size cases. -/
theorem C1_case_multiple_policy
    (catalog : List Product) (lines : List String) (u : String) (p : Product)
    (hinj : ∀ a ∈ catalog, ∀ b ∈ catalog, a.product_id = b.product_id → a.upc = b.upc)
    (hfind : lookupProduct catalog u = some p)
    (hcs : 0 < p.case_size)
    (hmem : u ∈ nonBlankUpcs lines) :
    ((∃ r ∈ (check_inventory_levels catalog (count_sales lines)).reorder_list, r.upc = u)
        ↔ ∃ k, 0 < k ∧ countSales lines u = k * p.case_size.toNat) ∧
      ∀ r ∈ (check_inventory_levels catalog (count_sales lines)).reorder_list,
        r.upc = u → r.cases_consumed = countSales lines u / p.case_size.toNat := by
  obtain ⟨hlist, _, _⟩ := checkRun_spec catalog lines hinj
  have hment : (u, countSales lines u) ∈ counterItems lines :=
    (mem_counterItems lines u).mpr hmem
  obtain ⟨hiff, huniq⟩ := decision_mem_iff catalog (counterItems lines)
    (counterItems_keys_nodup lines) u (countSales lines u) hment
  have hpos : 0 < countSales lines u := List.count_pos_iff.mpr hmem
  have hcsnat : 0 < p.case_size.toNat := by omega
  have harith := multiple_iff (countSales lines u) p.case_size.toNat hpos hcsnat
  have heval := decisionOf_eval catalog u (countSales lines u) p hfind hcs
  constructor
  · rw [hlist, hiff, heval]
    by_cases hc : countSales lines u % p.case_size.toNat = 0 ∧
        0 < countSales lines u / p.case_size.toNat
    · rw [if_pos hc]
      exact iff_of_true (by simp) (harith.mp hc)
    · rw [if_neg hc]
      exact iff_of_false (by simp) (fun hex => hc (harith.mpr hex))
  · rw [hlist]
    intro r hr hru
    have hthis := huniq r hr hru
    rw [heval] at hthis
    by_cases hc : countSales lines u % p.case_size.toNat = 0 ∧
        0 < countSales lines u / p.case_size.toNat
    · rw [if_pos hc] at hthis
      rw [← Option.some.inj hthis]
    · rw [if_neg hc] at hthis
      cases hthis

/-- Witness for C1: product 111 has case_size 5; five units sold is the
positive multiple 1 * 5, so one case is requested. -/
theorem C1_case_multiple_policy_witness :
    (lookupProduct [⟨1, "111", "Cola", 50, 5⟩] "111" = some ⟨1, "111", "Cola", 50, 5⟩) ∧
      (0 < (⟨1, "111", "Cola", 50, 5⟩ : Product).case_size) ∧
      ("111" ∈ nonBlankUpcs ["111", "111", "111", "111", "111"]) ∧
      (((∃ r ∈ (check_inventory_levels [⟨1, "111", "Cola", 50, 5⟩]
            (count_sales ["111", "111", "111", "111", "111"])).reorder_list, r.upc = "111")
          ↔ ∃ k, 0 < k ∧ countSales ["111", "111", "111", "111", "111"] "111"
              = k * (⟨1, "111", "Cola", 50, 5⟩ : Product).case_size.toNat) ∧
        ∀ r ∈ (check_inventory_levels [⟨1, "111", "Cola", 50, 5⟩]
            (count_sales ["111", "111", "111", "111", "111"])).reorder_list,
          r.upc = "111" → r.cases_consumed
            = countSales ["111", "111", "111", "111", "111"] "111"
                / (⟨1, "111", "Cola", 50, 5⟩ : Product).case_size.toNat) :=
  ⟨by decide, by decide, by decide,
    C1_case_multiple_policy [⟨1, "111", "Cola", 50, 5⟩] ["111", "111", "111", "111", "111"]
      "111" ⟨1, "111", "Cola", 50, 5⟩ (by decide) (by decide) (by decide) (by decide)⟩

/-- Counterexample to claim C3: product 222 has case_size 2; selling
2 * 2 + (2 - 1) = 5 units produces no reorder entry at all (5 is not an exact
multiple of 2), rather than the claimed decision for 2 cases. -/
theorem C3_counterexample :
    (2 ≤ (⟨2, "222", "Chips", 40, 2⟩ : Product).case_size) ∧
      countSales ["222", "222", "222", "222", "222"] "222" = 2 * 2 + (2 - 1) ∧
      ¬ ∃ r ∈ (check_inventory_levels [⟨2, "222", "Chips", 40, 2⟩]
          (count_sales ["222", "222", "222", "222", "222"])).reorder_list,
          r.upc = "222" := by decide

/-- Claim C3 as amended: under the case-multiple rule of
check_inventory_levels, selling 2 * case_size + (case_size - 1) units of a
product with case_size at least 2 produces no reorder decision at all — the
code acts only on exact multiples, so a partial-case remainder suppresses the
decision instead of being discarded after rounding down. -/
theorem C3_partial_case_no_decision
    (catalog : List Product) (lines : List String) (u : String) (p : Product)
    (hinj : ∀ a ∈ catalog, ∀ b ∈ catalog, a.product_id = b.product_id → a.upc = b.upc)
    (hfind : lookupProduct catalog u = some p)
    (hcs2 : 2 ≤ p.case_size)
    (hmem : u ∈ nonBlankUpcs lines)
    (hcount : countSales lines u
      = 2 * p.case_size.toNat + (p.case_size.toNat - 1)) :
    ∀ r ∈ (check_inventory_levels catalog (count_sales lines)).reorder_list, r.upc ≠ u := by
  obtain ⟨hlist, _, _⟩ := checkRun_spec catalog lines hinj
  have hment : (u, countSales lines u) ∈ counterItems lines :=
    (mem_counterItems lines u).mpr hmem
  obtain ⟨_, huniq⟩ := decision_mem_iff catalog (counterItems lines)
    (counterItems_keys_nodup lines) u (countSales lines u) hment
  have hcs : 0 < p.case_size := by omega
  have hcsn : 2 ≤ p.case_size.toNat := by omega
  have hmod : countSales lines u % p.case_size.toNat ≠ 0 := by
    rw [hcount]
    have h1 : 2 * p.case_size.toNat + (p.case_size.toNat - 1)
        = (p.case_size.toNat - 1) + 2 * p.case_size.toNat := by omega
    rw [h1, Nat.add_mul_mod_self_right, Nat.mod_eq_of_lt (by omega)]
    omega
  have heval := decisionOf_eval catalog u (countSales lines u) p hfind hcs
  intro r hr hru
  rw [hlist] at hr
  have hthis := huniq r hr hru
  rw [heval, if_neg (fun hc => hmod hc.1)] at hthis
  cases hthis

/-- Witness for the amended C3: case_size 3, eight units sold
(2 * 3 + 2 = 8), no decision for UPC 333. -/
theorem C3_partial_case_no_decision_witness :
    (lookupProduct [⟨3, "333", "Soda", 60, 3⟩] "333" = some ⟨3, "333", "Soda", 60, 3⟩) ∧
      (2 ≤ (⟨3, "333", "Soda", 60, 3⟩ : Product).case_size) ∧
      ("333" ∈ nonBlankUpcs ["333", "333", "333", "333", "333", "333", "333", "333"]) ∧
      (countSales ["333", "333", "333", "333", "333", "333", "333", "333"] "333"
        = 2 * (⟨3, "333", "Soda", 60, 3⟩ : Product).case_size.toNat
            + ((⟨3, "333", "Soda", 60, 3⟩ : Product).case_size.toNat - 1)) ∧
      ∀ r ∈ (check_inventory_levels [⟨3, "333", "Soda", 60, 3⟩]
          (count_sales ["333", "333", "333", "333", "333", "333", "333", "333"])).reorder_list,
        r.upc ≠ "333" :=
  ⟨by decide, by decide, by decide, by decide,
    C3_partial_case_no_decision [⟨3, "333", "Soda", 60, 3⟩]
      ["333", "333", "333", "333", "333", "333", "333", "333"] "333"
      ⟨3, "333", "Soda", 60, 3⟩ (by decide) (by decide) (by decide) (by decide) (by decide)⟩

/-- Claim C4: a UPC absent from the products table never aborts a batch (both
embedded runs are total functions returning normally), is skipped without any
inventory effect — every cataloged product changes only by its own counts —
and is reported: check_inventory_levels prints a warning naming it (the
warnings list) and confirm_order_from_file puts it in skipped_upcs. -/
theorem C4_unknown_upc_skipped
    (catalog : List Product) (lines fileLines : List String) (u : String)
    (hinj : ∀ a ∈ catalog, ∀ b ∈ catalog, a.product_id = b.product_id → a.upc = b.upc)
    (hnone : lookupProduct catalog u = none)
    (hmemS : u ∈ nonBlankUpcs lines)
    (hmemF : u ∈ nonBlankUpcs fileLines) :
    (u ∈ (check_inventory_levels catalog (count_sales lines)).warnings) ∧
      (∀ r ∈ (check_inventory_levels catalog (count_sales lines)).reorder_list,
        r.upc ≠ u) ∧
      (∀ v q, lookupProduct catalog v = some q →
        lookupProduct (check_inventory_levels catalog (count_sales lines)).catalog v
          = some { q with current_quantity :=
              q.current_quantity - (countSales lines v : Int) }) ∧
      ((confirm_order_from_file catalog fileLines none).success = true) ∧
      (u ∈ (confirm_order_from_file catalog fileLines none).skipped) ∧
      (∀ v q, lookupProduct catalog v = some q →
        lookupProduct (confirm_order_from_file catalog fileLines none).catalog v
          = some (if 0 < q.case_size then
              { q with current_quantity :=
                  q.current_quantity + (countSales fileLines v : Int) * q.case_size }
            else q)) := by
  obtain ⟨hlist, hwarn, hcat⟩ := checkRun_spec catalog lines hinj
  have hmentS : (u, countSales lines u) ∈ counterItems lines :=
    (mem_counterItems lines u).mpr hmemS
  have hmentF : (u, countSales fileLines u) ∈ counterItems fileLines :=
    (mem_counterItems fileLines u).mpr hmemF
  have hneF : counterItems fileLines ≠ [] := List.ne_nil_of_mem hmentF
  obtain ⟨hsucc, hcat', hskip'⟩ := confirmRun_spec catalog fileLines hinj hneF
  obtain ⟨_, huniq⟩ := decision_mem_iff catalog (counterItems lines)
    (counterItems_keys_nodup lines) u (countSales lines u) hmentS
  refine ⟨?_, ?_, ?_, hsucc, ?_, ?_⟩
  · rw [hwarn]
    exact List.mem_map.mpr ⟨(u, countSales lines u),
      List.mem_filter.mpr ⟨hmentS, by simp [hnone]⟩, rfl⟩
  · intro r hr hru
    rw [hlist] at hr
    have hthis := huniq r hr hru
    simp [decisionOf, hnone] at hthis
  · intro v q hq
    have hv := hcat v
    rw [hq] at hv
    simpa using hv
  · rw [hskip' u]
    exact ⟨(u, countSales fileLines u), hmentF, rfl, by simp [skipsEntry, hnone]⟩
  · intro v q hq
    have hv := hcat' v
    rw [hq] at hv
    simpa using hv

/-- Witness for C4: UPC 999 is not in the catalog; it appears in both a sales
input and a reorder file next to the known UPC 111. -/
theorem C4_unknown_upc_skipped_witness :
    (lookupProduct [⟨1, "111", "Cola", 50, 5⟩] "999" = none) ∧
      ("999" ∈ nonBlankUpcs ["111", "999"]) ∧
      ("999" ∈ nonBlankUpcs ["999", "111"]) ∧
      (("999" ∈ (check_inventory_levels [⟨1, "111", "Cola", 50, 5⟩]
          (count_sales ["111", "999"])).warnings) ∧
        (∀ r ∈ (check_inventory_levels [⟨1, "111", "Cola", 50, 5⟩]
            (count_sales ["111", "999"])).reorder_list, r.upc ≠ "999") ∧
        (∀ v q, lookupProduct [⟨1, "111", "Cola", 50, 5⟩] v = some q →
          lookupProduct (check_inventory_levels [⟨1, "111", "Cola", 50, 5⟩]
              (count_sales ["111", "999"])).catalog v
            = some { q with current_quantity :=
                q.current_quantity - (countSales ["111", "999"] v : Int) }) ∧
        ((confirm_order_from_file [⟨1, "111", "Cola", 50, 5⟩] ["999", "111"] none).success
          = true) ∧
        ("999" ∈ (confirm_order_from_file [⟨1, "111", "Cola", 50, 5⟩]
          ["999", "111"] none).skipped) ∧
        (∀ v q, lookupProduct [⟨1, "111", "Cola", 50, 5⟩] v = some q →
          lookupProduct (confirm_order_from_file [⟨1, "111", "Cola", 50, 5⟩]
              ["999", "111"] none).catalog v
            = some (if 0 < q.case_size then
                { q with current_quantity :=
                    q.current_quantity + (countSales ["999", "111"] v : Int) * q.case_size }
              else q))) :=
  ⟨by decide, by decide, by decide,
    C4_unknown_upc_skipped [⟨1, "111", "Cola", 50, 5⟩] ["111", "999"] ["999", "111"]
      "999" (by decide) (by decide) (by decide) (by decide)⟩

/-- Counterexample to claim C7: product 777 has case_size 0 and is sold once;
check_inventory_levels does skip the decision, but logs no warning at all —
its warnings list is empty — where the claim requires a logged warning from
both the policy engine and the delivery confirmation. -/
theorem C7_counterexample :
    (lookupProduct [⟨7, "777", "Badcfg", 9, 0⟩] "777" = some ⟨7, "777", "Badcfg", 9, 0⟩) ∧
      ((⟨7, "777", "Badcfg", 9, 0⟩ : Product).case_size ≤ 0) ∧
      ("777" ∈ nonBlankUpcs ["777"]) ∧
      ((check_inventory_levels [⟨7, "777", "Badcfg", 9, 0⟩]
          (count_sales ["777"])).warnings = []) ∧
      (∀ r ∈ (check_inventory_levels [⟨7, "777", "Badcfg", 9, 0⟩]
          (count_sales ["777"])).reorder_list, r.upc ≠ "777") := by decide

/-- Claim C7 as amended: for a product whose case_size is not positive, the
policy engine emits no decision (the case_size > 0 guard short-circuits before
the modulus is taken) but logs no warning and still applies the quantity
decrement, while the delivery confirmation skips the product with a warning
(recording it in skipped_upcs) and adds no quantity; both batches continue and
return normally. The isinstance integer test of the reconciler is vacuous in
this integer-typed embedding. -/
theorem C7_invalid_case_size
    (catalog : List Product) (lines fileLines : List String) (u : String) (p : Product)
    (hinj : ∀ a ∈ catalog, ∀ b ∈ catalog, a.product_id = b.product_id → a.upc = b.upc)
    (hfind : lookupProduct catalog u = some p)
    (hcs : p.case_size ≤ 0)
    (hmemS : u ∈ nonBlankUpcs lines)
    (hmemF : u ∈ nonBlankUpcs fileLines) :
    (∀ r ∈ (check_inventory_levels catalog (count_sales lines)).reorder_list,
        r.upc ≠ u) ∧
      (u ∉ (check_inventory_levels catalog (count_sales lines)).warnings) ∧
      (lookupProduct (check_inventory_levels catalog (count_sales lines)).catalog u
        = some { p with current_quantity :=
            p.current_quantity - (countSales lines u : Int) }) ∧
      ((confirm_order_from_file catalog fileLines none).success = true) ∧
      (u ∈ (confirm_order_from_file catalog fileLines none).skipped) ∧
      (lookupProduct (confirm_order_from_file catalog fileLines none).catalog u
        = some p) := by
  have hncs : ¬ 0 < p.case_size := by omega
  obtain ⟨hlist, hwarn, hcat⟩ := checkRun_spec catalog lines hinj
  have hmentS : (u, countSales lines u) ∈ counterItems lines :=
    (mem_counterItems lines u).mpr hmemS
  have hmentF : (u, countSales fileLines u) ∈ counterItems fileLines :=
    (mem_counterItems fileLines u).mpr hmemF
  have hneF : counterItems fileLines ≠ [] := List.ne_nil_of_mem hmentF
  obtain ⟨hsucc, hcat', hskip'⟩ := confirmRun_spec catalog fileLines hinj hneF
  obtain ⟨_, huniq⟩ := decision_mem_iff catalog (counterItems lines)
    (counterItems_keys_nodup lines) u (countSales lines u) hmentS
  refine ⟨?_, ?_, ?_, hsucc, ?_, ?_⟩
  · intro r hr hru
    rw [hlist] at hr
    have hthis := huniq r hr hru
    simp [decisionOf, hfind, hncs] at hthis
  · rw [hwarn]
    intro hmem
    rcases List.mem_map.mp hmem with ⟨e, he, hefst⟩
    have he' := List.mem_filter.mp he
    rw [hefst] at he'
    rw [hfind] at he'
    simp at he'
  · have hv := hcat u
    rw [hfind] at hv
    simpa using hv
  · rw [hskip' u]
    exact ⟨(u, countSales fileLines u), hmentF, rfl, by simp [skipsEntry, hfind, hncs]⟩
  · have hv := hcat' u
    rw [hfind] at hv
    simpa [hncs] using hv

/-- Witness for the amended C7: case_size 0 product 777, sold once and
appearing once in a reorder file. -/
theorem C7_invalid_case_size_witness :
    (lookupProduct [⟨7, "777", "Badcfg", 9, 0⟩] "777" = some ⟨7, "777", "Badcfg", 9, 0⟩) ∧
      ((⟨7, "777", "Badcfg", 9, 0⟩ : Product).case_size ≤ 0) ∧
      ("777" ∈ nonBlankUpcs ["777"]) ∧
      ((∀ r ∈ (check_inventory_levels [⟨7, "777", "Badcfg", 9, 0⟩]
            (count_sales ["777"])).reorder_list, r.upc ≠ "777") ∧
        ("777" ∉ (check_inventory_levels [⟨7, "777", "Badcfg", 9, 0⟩]
            (count_sales ["777"])).warnings) ∧
        (lookupProduct (check_inventory_levels [⟨7, "777", "Badcfg", 9, 0⟩]
            (count_sales ["777"])).catalog "777"
          = some { (⟨7, "777", "Badcfg", 9, 0⟩ : Product) with current_quantity :=
              (⟨7, "777", "Badcfg", 9, 0⟩ : Product).current_quantity
                - (countSales ["777"] "777" : Int) }) ∧
        ((confirm_order_from_file [⟨7, "777", "Badcfg", 9, 0⟩] ["777"] none).success
          = true) ∧
        ("777" ∈ (confirm_order_from_file [⟨7, "777", "Badcfg", 9, 0⟩]
            ["777"] none).skipped) ∧
        (lookupProduct (confirm_order_from_file [⟨7, "777", "Badcfg", 9, 0⟩]
            ["777"] none).catalog "777" = some ⟨7, "777", "Badcfg", 9, 0⟩)) :=
  ⟨by decide, by decide, by decide,
    C7_invalid_case_size [⟨7, "777", "Badcfg", 9, 0⟩] ["777"] ["777"] "777"
      ⟨7, "777", "Badcfg", 9, 0⟩ (by decide) (by decide) (by decide) (by decide) (by decide)⟩

lemma insertLoop_ok :
    ∀ (items : List ReorderItem) (failAt : Option Nat)
      (pending recs : List ReorderRecord),
      insertLoop items failAt pending = .ok recs → recs = pending ++ items.map mkRecord := by
  intro items
  induction items with
  | nil =>
      intro f p r h
      cases h
      simp
  | cons item rest ih =>
      intro f p r h
      match f with
      | some 0 => exact absurd h (by simp [insertLoop])
      | some (i + 1) =>
          rw [insertLoop] at h
          simpa using ih (some i) _ r h
      | none =>
          rw [insertLoop] at h
          simpa using ih none _ r h

lemma create_reorder_records_ok (l : List ReorderItem) (f : Option Nat)
    (recs : List ReorderRecord) (h : create_reorder_records l f = .ok recs) :
    recs = l.map mkRecord := by
  by_cases hemp : l.isEmpty
  · rw [create_reorder_records, if_pos hemp] at h
    cases h
    rw [List.isEmpty_iff.mp hemp]
    rfl
  · rw [create_reorder_records, if_neg hemp] at h
    cases hloop : insertLoop l f [] with
    | ok pending =>
        rw [hloop] at h
        cases h
        simpa using insertLoop_ok l f [] _ hloop
    | error e => rw [hloop] at h; cases h

/-- Claim C5: the Emitter is atomic — a database failure inside the
reorder-record INSERT batch makes the whole run fail (create_reorder_records
rolls the transaction back and exits before main reaches
generate_reorder_report), so no records become visible and no reorder file is
written; and whenever the run does produce a file, the full record batch was
committed first. -/
theorem C5_emitter_atomicity (reorder_list : List ReorderItem) (failAt : Option Nat) :
    (∀ i, failAt = some i → i < reorder_list.length →
        runEmitter reorder_list failAt = .error "MySQL error") ∧
      ∀ recs file, runEmitter reorder_list failAt = .ok (recs, file) →
        recs = reorder_list.map mkRecord ∧
          file = generate_reorder_report reorder_list := by
  constructor
  · rintro i rfl hi
    have hempty : reorder_list.isEmpty = false := by
      rw [List.isEmpty_eq_false]
      intro h0
      rw [h0] at hi
      simp at hi
    have hfail := insertLoop_fail reorder_list [] i hi
    simp [runEmitter, create_reorder_records, hempty, hfail]
  · intro recs file hok
    unfold runEmitter at hok
    cases hcr : create_reorder_records reorder_list failAt with
    | error e => rw [hcr] at hok; cases hok
    | ok recs' =>
        rw [hcr] at hok
        cases hok
        exact ⟨create_reorder_records_ok _ _ _ hcr, rfl⟩

/-- Witness for C5: a one-item batch failing at its first INSERT produces the
error (no file), and the same batch without failure commits the record and
writes the file. -/
theorem C5_emitter_atomicity_witness :
    ((some 0 : Option Nat) = some 0) ∧
      (0 < ([⟨1, "111", "Cola", 45, 5, 1⟩] : List ReorderItem).length) ∧
      (runEmitter [⟨1, "111", "Cola", 45, 5, 1⟩] (some 0) = .error "MySQL error") ∧
      ∀ recs file, runEmitter [⟨1, "111", "Cola", 45, 5, 1⟩] none = .ok (recs, file) →
        recs = [⟨1, "111", "Cola", 45, 5, 1⟩].map mkRecord ∧
          file = generate_reorder_report [⟨1, "111", "Cola", 45, 5, 1⟩] :=
  ⟨rfl, by decide,
    (C5_emitter_atomicity [⟨1, "111", "Cola", 45, 5, 1⟩] (some 0)).1 0 rfl (by decide),
    (C5_emitter_atomicity [⟨1, "111", "Cola", 45, 5, 1⟩] none).2⟩

/-- Claim C6: the Reconciler pass is all-or-nothing for infrastructure
failures — a database error at any iteration rolls back every quantity change
of the run and the call reports failure — while business-logic skips never
roll anything back: a run without database failure succeeds and every
positive-case_size product still receives its full addition. -/
theorem C6_reconciler_atomicity (catalog : List Product) (fileLines : List String)
    (hinj : ∀ a ∈ catalog, ∀ b ∈ catalog, a.product_id = b.product_id → a.upc = b.upc) :
    (∀ i, i < (counterItems fileLines).length →
        (confirm_order_from_file catalog fileLines (some i)).success = false ∧
          (confirm_order_from_file catalog fileLines (some i)).catalog = catalog) ∧
      (counterItems fileLines ≠ [] →
        (confirm_order_from_file catalog fileLines none).success = true ∧
          ∀ v q, lookupProduct catalog v = some q → 0 < q.case_size →
            lookupProduct (confirm_order_from_file catalog fileLines none).catalog v
              = some { q with current_quantity :=
                  q.current_quantity + (countSales fileLines v : Int) * q.case_size }) := by
  constructor
  · intro i hi
    rw [confirmRun_fail catalog fileLines i hi]
    exact ⟨rfl, rfl⟩
  · intro hne
    obtain ⟨hsucc, hcat, _⟩ := confirmRun_spec catalog fileLines hinj hne
    refine ⟨hsucc, ?_⟩
    intro v q hq hqcs
    have hv := hcat v
    rw [hq] at hv
    simpa [hqcs] using hv

/-- Witness for C6: a two-line file (one known, one unknown UPC); a failure at
the first iteration leaves the table untouched and reports failure, while the
failure-free run succeeds even though the unknown UPC is skipped. -/
theorem C6_reconciler_atomicity_witness :
    (0 < (counterItems ["111", "999"]).length) ∧
      (counterItems ["111", "999"] ≠ []) ∧
      ((confirm_order_from_file [⟨1, "111", "Cola", 50, 5⟩] ["111", "999"]
            (some 0)).success = false ∧
        (confirm_order_from_file [⟨1, "111", "Cola", 50, 5⟩] ["111", "999"]
            (some 0)).catalog = [⟨1, "111", "Cola", 50, 5⟩]) ∧
      ((confirm_order_from_file [⟨1, "111", "Cola", 50, 5⟩] ["111", "999"]
          none).success = true) :=
  ⟨by decide, by decide,
    (C6_reconciler_atomicity [⟨1, "111", "Cola", 50, 5⟩] ["111", "999"]
      (by decide)).1 0 (by decide),
    ((C6_reconciler_atomicity [⟨1, "111", "Cola", 50, 5⟩] ["111", "999"]
      (by decide)).2 (by decide)).1⟩

lemma count_flatten_replicate_zero (v : String) :
    ∀ decisions : List ReorderItem, (∀ d ∈ decisions, d.upc ≠ v) →
      ((decisions.map (fun item => List.replicate item.cases_consumed item.upc)).flatten).count v
        = 0 := by
  intro decisions
  induction decisions with
  | nil => intro _; rfl
  | cons d rest ih =>
      intro h
      rw [List.map_cons, List.flatten_cons, List.count_append, List.count_replicate]
      have hne : (d.upc == v) = false := by
        simp [h d (List.mem_cons_self _ _)]
      rw [hne]
      simpa using ih (fun d' hd' => h d' (List.mem_cons_of_mem _ hd'))

/-- With pairwise distinct decision UPCs, the reorder file holds exactly
cases_consumed lines of each decision UPC. -/
lemma count_report :
    ∀ decisions : List ReorderItem, (decisions.map (fun d => d.upc)).Nodup →
      ∀ d ∈ decisions,
        ((decisions.map (fun item => List.replicate item.cases_consumed item.upc)).flatten).count
            d.upc = d.cases_consumed := by
  intro decisions
  induction decisions with
  | nil => intro _ d hd; cases hd
  | cons a rest ih =>
      intro hnodup d hd
      rw [List.map_cons] at hnodup
      have h1 := (List.nodup_cons.mp hnodup).1
      have h2 := (List.nodup_cons.mp hnodup).2
      rw [List.map_cons, List.flatten_cons, List.count_append]
      rcases List.mem_cons.mp hd with rfl | hd'
      · rw [List.count_replicate_self]
        have hzero := count_flatten_replicate_zero d.upc rest
          (fun d' hd' hc => h1 (hc ▸ List.mem_map_of_mem _ hd'))
        rw [hzero]
        rfl
      · have ha : (a.upc == d.upc) = false := by
          simp only [beq_eq_false_iff_ne, ne_eq]
          intro hc
          exact h1 (hc ▸ List.mem_map_of_mem _ hd')
        rw [List.count_replicate, ha]
        simpa using ih h2 d hd'

lemma mem_report {decisions : List ReorderItem} {x : String}
    (hx : x ∈ (decisions.map
        (fun item => List.replicate item.cases_consumed item.upc)).flatten) :
    ∃ d ∈ decisions, x = d.upc := by
  rcases List.mem_flatten.mp hx with ⟨block, hb, hxb⟩
  rcases List.mem_map.mp hb with ⟨d, hd, rfl⟩
  exact ⟨d, hd, List.eq_of_mem_replicate hxb⟩

/-- Lines that are already stripped and non-blank pass through the parser
untouched. -/
lemma nonBlank_fixed (lines : List String)
    (h : ∀ x ∈ lines, strip x = x ∧ x ≠ "") : nonBlankUpcs lines = lines := by
  unfold nonBlankUpcs
  have h1 : lines.map strip = lines := by
    have h2 := List.map_congr_left (l := lines) (f := strip) (g := id)
      (fun x hx => (h x hx).1)
    simpa using h2
  rw [h1]
  apply List.filter_eq_self.mpr
  intro a ha
  simpa using (h a ha).2

/-- Claim C2: emitting a non-empty decision set to a reorder file
(cases_to_order lines of each UPC) and feeding that file to
confirm_order_from_file raises each decided product by exactly
cases_to_order * case_size, provided the catalog still assigns the product
the same positive case_size. The well-formedness hypotheses record what the
engine guarantees for its own decisions: stripped non-blank distinct UPCs and
at least one case per decision. -/
theorem C2_roundtrip
    (catalog : List Product) (decisions : List ReorderItem)
    (hne : decisions ≠ [])
    (hnodup : (decisions.map (fun d => d.upc)).Nodup)
    (hwf : ∀ d ∈ decisions, strip d.upc = d.upc ∧ d.upc ≠ "" ∧ 0 < d.cases_consumed)
    (hinj : ∀ a ∈ catalog, ∀ b ∈ catalog, a.product_id = b.product_id → a.upc = b.upc)
    (hcs : ∀ d ∈ decisions, ∀ q, lookupProduct catalog d.upc = some q →
        q.case_size = d.case_size ∧ 0 < q.case_size) :
    ∀ d ∈ decisions, ∀ q, lookupProduct catalog d.upc = some q →
      lookupProduct (confirm_order_from_file catalog
          (generate_reorder_report decisions) none).catalog d.upc
        = some { q with current_quantity :=
            q.current_quantity + (d.cases_consumed : Int) * d.case_size } := by
  intro d hd q hq
  have hrep : generate_reorder_report decisions
      = (decisions.map (fun item => List.replicate item.cases_consumed item.upc)).flatten := by
    rw [generate_reorder_report, if_neg hne]
  set report :=
    (decisions.map (fun item => List.replicate item.cases_consumed item.upc)).flatten
    with hreportdef
  have hfix : nonBlankUpcs report = report := by
    apply nonBlank_fixed
    intro x hx
    rcases mem_report hx with ⟨d', hd', rfl⟩
    exact ⟨(hwf d' hd').1, (hwf d' hd').2.1⟩
  have hcount : countSales report d.upc = d.cases_consumed := by
    rw [countSales, hfix]
    exact count_report decisions hnodup d hd
  have hmemrep : d.upc ∈ report := by
    apply List.count_pos_iff.mp
    rw [count_report decisions hnodup d hd]
    exact (hwf d hd).2.2
  have hmemNB : d.upc ∈ nonBlankUpcs report := by rw [hfix]; exact hmemrep
  have hment := (mem_counterItems report d.upc).mpr hmemNB
  have hneE : counterItems report ≠ [] := List.ne_nil_of_mem hment
  obtain ⟨_, hcat, _⟩ := confirmRun_spec catalog report hinj hneE
  obtain ⟨hcseq, hcspos⟩ := hcs d hd q hq
  have hv := hcat d.upc
  rw [hq] at hv
  rw [hrep, hv]
  simp only [Option.map_some']
  rw [if_pos hcspos, hcount, hcseq]

/-- Witness for C2: one decision for 1 case of UPC 111 (case_size 5); the
round trip raises the quantity from 45 to 45 + 1 * 5. -/
theorem C2_roundtrip_witness :
    (([⟨1, "111", "Cola", 45, 5, 1⟩] : List ReorderItem) ≠ []) ∧
      (([⟨1, "111", "Cola", 45, 5, 1⟩] : List ReorderItem).map (fun d => d.upc)).Nodup ∧
      (lookupProduct [⟨1, "111", "Cola", 45, 5⟩] "111" = some ⟨1, "111", "Cola", 45, 5⟩) ∧
      ∀ d ∈ ([⟨1, "111", "Cola", 45, 5, 1⟩] : List ReorderItem),
        ∀ q, lookupProduct [⟨1, "111", "Cola", 45, 5⟩] d.upc = some q →
          lookupProduct (confirm_order_from_file [⟨1, "111", "Cola", 45, 5⟩]
              (generate_reorder_report [⟨1, "111", "Cola", 45, 5, 1⟩]) none).catalog d.upc
            = some { q with current_quantity :=
                q.current_quantity + (d.cases_consumed : Int) * d.case_size } :=
  ⟨by decide, by decide, by decide,
    C2_roundtrip [⟨1, "111", "Cola", 45, 5⟩] [⟨1, "111", "Cola", 45, 5, 1⟩]
      (by decide) (by decide) (by decide) (by decide) (by decide)⟩

/-- Claim C10: an empty decision set still writes the reorder file, but filled
with the literal sentence instead of UPC lines; feeding that artifact back to
confirm_order_from_file changes no inventory — the sentence is not a
catalogued UPC, so it lands in the skip list (and a file with no non-blank
lines at all is rejected with a failure result). -/
theorem C10_empty_decision_file (catalog : List Product)
    (hno : lookupProduct catalog "No items need to be reordered." = none) :
    (generate_reorder_report [] = ["No items need to be reordered."]) ∧
      ((confirm_order_from_file catalog
          (generate_reorder_report []) none).success = true) ∧
      ("No items need to be reordered."
        ∈ (confirm_order_from_file catalog (generate_reorder_report []) none).skipped) ∧
      ((confirm_order_from_file catalog (generate_reorder_report []) none).catalog
        = catalog) ∧
      ((confirm_order_from_file catalog [] none).success = false) ∧
      ((confirm_order_from_file catalog [] none).catalog = catalog) := by
  have hrep : generate_reorder_report [] = ["No items need to be reordered."] := rfl
  have hentries : counterItems ["No items need to be reordered."]
      = [("No items need to be reordered.", 1)] := by decide
  have hstep : confirmStep ⟨catalog, 0, []⟩ ("No items need to be reordered.", 1)
      = ⟨catalog, 0, ["No items need to be reordered."]⟩ := by
    simp [confirmStep, hno, insertSkip]
  have hne' : counterItems ["No items need to be reordered."] ≠ [] := by
    rw [hentries]
    exact List.cons_ne_nil _ _
  have hempty' : (counterItems ["No items need to be reordered."]).isEmpty = false :=
    List.isEmpty_eq_false.mpr hne'
  have hloop : updateLoop ⟨catalog, 0, []⟩
      (counterItems ["No items need to be reordered."]) none
      = .ok ⟨catalog, 0, ["No items need to be reordered."]⟩ := by
    rw [hentries, updateLoop_none, List.foldl_cons, hstep, List.foldl_nil]
  have hok : confirm_order_from_file catalog ["No items need to be reordered."] none
      = ⟨true, catalog, (nonBlankUpcs ["No items need to be reordered."]).length, 0,
         ["No items need to be reordered."]⟩ := by
    simp [confirm_order_from_file, hempty', hloop]
  have hempty : confirm_order_from_file catalog [] none = ⟨false, catalog, 0, 0, []⟩ := rfl
  rw [hrep]
  exact ⟨rfl, by rw [hok], by rw [hok]; exact List.mem_singleton.mpr rfl,
    by rw [hok], by rw [hempty], by rw [hempty]⟩

/-- Witness for C10 on a concrete one-product catalog that does not contain
the sentinel sentence as a UPC. -/
theorem C10_empty_decision_file_witness :
    (lookupProduct [⟨1, "111", "Cola", 50, 5⟩] "No items need to be reordered." = none) ∧
      ((generate_reorder_report [] = ["No items need to be reordered."]) ∧
        ((confirm_order_from_file [⟨1, "111", "Cola", 50, 5⟩]
            (generate_reorder_report []) none).success = true) ∧
        ("No items need to be reordered."
          ∈ (confirm_order_from_file [⟨1, "111", "Cola", 50, 5⟩]
              (generate_reorder_report []) none).skipped) ∧
        ((confirm_order_from_file [⟨1, "111", "Cola", 50, 5⟩]
            (generate_reorder_report []) none).catalog = [⟨1, "111", "Cola", 50, 5⟩]) ∧
        ((confirm_order_from_file [⟨1, "111", "Cola", 50, 5⟩] [] none).success = false) ∧
        ((confirm_order_from_file [⟨1, "111", "Cola", 50, 5⟩] [] none).catalog
          = [⟨1, "111", "Cola", 50, 5⟩])) :=
  ⟨by decide, C10_empty_decision_file [⟨1, "111", "Cola", 50, 5⟩] (by decide)⟩

end G2J
